import Mathlib

/-
  Verification of the manual-approval-gate admission webhook
  (pkg/reconciler/webhook/webhook.go).

  The decision engine is embedded shallowly: each Go function becomes a Lean
  function of the same name.  The Go loops index the new approver list with the
  old list's loop index; this positional pairing is modelled by recursing on the
  old list while taking `head?`/`tail` of the new list, so that `old[i]` pairs
  with `new[i]`.  An unchecked Go index expression `newObjApprovers[i]` panics
  when `i` is out of range; such a panic is modelled by the value `none` of an
  `Option`-typed result.  Go's `(bool, error)` results become
  `Except String Bool` (`error e` for a non-nil error, which in this code always
  travels with `false`).
-/

/-- Modelled from the spec: a single recorded approver response inside
`Status.ApproversResponse`.  Its element type lives in the
`pkg/apis/approvaltask/v1alpha1` package, which is not among the webhook
sources; only the count of these entries is ever consulted (spec §3,
`approvalsReceived`). -/
structure ApproverState where
  name : String
  response : String
deriving DecidableEq, Inhabited

/-- A named individual's decision inside a Group approver entry
(`v1alpha1.UserDetails`, fields `Name` and `Input`). -/
structure UserDetails where
  name : String
  input : String
deriving DecidableEq, Inhabited

/-- One entry of the task's approver list (`v1alpha1.ApproverDetails`,
fields `Name`, `Input`, `Type`, `Users`). -/
structure ApproverDetails where
  name : String
  input : String
  type : String
  users : List UserDetails
deriving DecidableEq, Inhabited

/-- `v1alpha1.ApprovalTaskSpec`: the approver list and the required-approval
threshold (`NumberOfApprovalsRequired`, a Go `int`, hence `Int`). -/
structure ApprovalTaskSpec where
  approvers : List ApproverDetails
  numberOfApprovalsRequired : Int
deriving DecidableEq, Inhabited

/-- `v1alpha1.ApprovalTaskStatus`: the task-level state string and the list of
recorded responses. -/
structure ApprovalTaskStatus where
  state : String
  approversResponse : List ApproverState
deriving DecidableEq, Inhabited

/-- `v1alpha1.ApprovalTask` (only the fields the webhook reads).  The
`Inhabited` default is the Go zero value: empty approvers, threshold 0,
empty state string, no responses. -/
structure ApprovalTask where
  spec : ApprovalTaskSpec
  status : ApprovalTaskStatus
deriving DecidableEq, Inhabited

/-- The requester's identity, from `request.UserInfo` (`Username`, `Groups`). -/
structure UserInfo where
  username : String
  groups : List String
deriving DecidableEq, Inhabited

/-- The webhook's answer: `admissionv1.AdmissionResponse`, reduced to the
`Allowed` flag and the `Result.Message` string (empty on allow). -/
structure AdmissionResponse where
  allowed : Bool
  message : String
deriving DecidableEq, Inhabited

/-- Modelled from the spec: the approver `type` field defaults to `"User"`
when unset (spec §3: "type: enum {User, Group}, defaults to User when
unset").  `v1alpha1.DefaultedApproverType` itself lives in the API types
package, outside the webhook sources. -/
def DefaultedApproverType (t : String) : String :=
  if t == "" then "User" else t

/-- The membership test the webhook repeats for Group entries
(webhook.go lines 242-254, 302-316, 417-431): the requester is in the group
when the group's name occurs in `request.UserInfo.Groups`, or when the
requester's username occurs in the entry's `Users` list. -/
def userInGroup (request : UserInfo) (approver : ApproverDetails) : Bool :=
  request.groups.any (fun userGroup => approver.name == userGroup)
    || approver.users.any (fun user => user.name == request.username)

/-- `ifUserExists` (webhook.go lines 232-258): an empty approver list accepts
every requester; otherwise some entry must match the requester. -/
def ifUserExists (approvals : List ApproverDetails) (request : UserInfo) : Bool :=
  if approvals.length == 0 then
    true
  else
    approvals.any fun approval =>
      match DefaultedApproverType approval.type with
      | "User" => approval.name == request.username
      | "Group" => userInGroup request approval
      | _ => false

/-- `isApprovalRequired` (webhook.go lines 260-268). -/
def isApprovalRequired (approvaltask : ApprovalTask) : Bool :=
  if approvaltask.status.state == "rejected" || approvaltask.status.state == "approved" then
    false
  else if (approvaltask.status.approversResponse.length : Int)
      == approvaltask.spec.numberOfApprovalsRequired then
    false
  else
    true

/-- The message `fmt.Errorf("invalid input value: '%s'. Supported values are
'approve' or 'reject'", input)` produces (webhook.go line 275). -/
def invalidInputMsg (input : String) : String :=
  "invalid input value: '" ++ input ++ "'. Supported values are 'approve' or 'reject'"

/-- `hasValidInputValue` (webhook.go lines 271-276): `ok` for exactly
`"approve"` and `"reject"`, otherwise the invalid-value error. -/
def hasValidInputValue (input : String) : Except String Unit :=
  if input == "approve" || input == "reject" then
    Except.ok ()
  else
    Except.error (invalidInputMsg input)

/-- The recurring return pattern `if err := hasValidInputValue(v); err != nil
{ return false, err }; return true, nil` (webhook.go lines 282-285, 322-325,
355-358, 392-395). -/
def validatedChange (v : String) : Except String Bool :=
  match hasValidInputValue v with
  | Except.error e => Except.error e
  | Except.ok _ => Except.ok true

/-- `hasOnlyInputChanged` (webhook.go lines 280-288): a change exists iff the
name is unchanged and the input differs; the new input must then be valid. -/
def hasOnlyInputChanged (oldObjApprover newObjApprover : ApproverDetails) : Except String Bool :=
  if oldObjApprover.name == newObjApprover.name
      && oldObjApprover.input != newObjApprover.input then
    validatedChange newObjApprover.input
  else
    Except.ok false

/-- The break-at-first-match loops `for _, user := range users { if user.Name ==
name { ...; break } }` (webhook.go lines 333-347, 369-388). -/
def findUser (users : List UserDetails) (name : String) : Option UserDetails :=
  users.find? (fun user => user.name == name)

/-- The member-level part of the Group branch of `IsUserApprovalChanged`
(webhook.go lines 329-397), reached when the group-level input is unchanged:
self-add of the requester, then an input change of the requester's own member
entry.  `some r` models that loop iteration returning `r`; `none` models
falling through to the next old-list index. -/
def groupMemberChange (approver : ApproverDetails) (newEntry : Option ApproverDetails)
    (request : UserInfo) : Option (Except String Bool) :=
  let newUsers := match newEntry with
    | some b => b.users
    | none => []
  let oldUserFound := (findUser approver.users request.username).isSome
  let newUserFound := (findUser newUsers request.username).isSome
  if !oldUserFound && newUserFound then
    some (match findUser newUsers request.username with
      | some user => validatedChange user.input
      | none => Except.ok true)
  else
    match findUser approver.users request.username, findUser newUsers request.username with
    | some oldUser, some newUser =>
        if oldUser.input != newUser.input then some (validatedChange newUser.input) else none
    | _, _ => none

/-- The Group branch of `IsUserApprovalChanged` for a group the requester
belongs to (webhook.go lines 318-397): first the group-level input (behind the
`i < len(newObjApprovers)` bound check), then the member-level rules. -/
def groupApprovalChange (approver : ApproverDetails) (newEntry : Option ApproverDetails)
    (request : UserInfo) : Option (Except String Bool) :=
  match newEntry with
  | some b =>
      if approver.input != b.input then some (validatedChange b.input)
      else groupMemberChange approver (some b) request
  | none => groupMemberChange approver none request

/-- `IsUserApprovalChanged` (webhook.go lines 291-401).  The old list is
scanned in order; the new list is indexed positionally.  The requester's own
User entry returns immediately through `hasOnlyInputChanged` — with an
UNCHECKED index into the new list (line 295), modelled by `none` (panic) when
the new list has no entry at that index.  A Group entry the requester belongs
to returns only when one of its rules fires; otherwise scanning continues. -/
def IsUserApprovalChanged : List ApproverDetails → List ApproverDetails → UserInfo →
    Option (Except String Bool)
  | [], _, _ => some (Except.ok false)
  | approver :: oldRest, newObjApprovers, request =>
    if approver.name == request.username && DefaultedApproverType approver.type == "User" then
      match newObjApprovers.head? with
      | none => none
      | some b => some (hasOnlyInputChanged approver b)
    else if DefaultedApproverType approver.type == "Group" then
      match (if userInGroup request approver
             then groupApprovalChange approver newObjApprovers.head? request
             else none) with
      | some r => some r
      | none => IsUserApprovalChanged oldRest newObjApprovers.tail request
    else
      IsUserApprovalChanged oldRest newObjApprovers.tail request

/-- Go builds `map[string]string` from a `Users` list by iterating and
assigning (webhook.go lines 442-453), so a duplicated name keeps the LAST
occurrence's input; this is that map's lookup. -/
def mapLookup (users : List UserDetails) (name : String) : Option String :=
  users.foldl (fun acc user => if user.name == name then some user.input else acc) none

/-- The two member-map loops of `CheckOtherUsersForInvalidChanges`
(webhook.go lines 455-477): every old member other than the requester that is
still present in the new map keeps its input, and every name newly present in
the new map is the requester, who must be a member of the group. -/
def groupUsersIsolated (approver : ApproverDetails) (newUsers : List UserDetails)
    (request : UserInfo) (isUserInGroup : Bool) : Bool :=
  approver.users.all (fun user =>
    user.name == request.username
      || (match mapLookup newUsers user.name with
          | none => true
          | some newInput => mapLookup approver.users user.name == some newInput))
  && newUsers.all (fun user =>
    (mapLookup approver.users user.name).isSome
      || (user.name == request.username && isUserInGroup))

/-- `CheckOtherUsersForInvalidChanges` (webhook.go lines 404-482).  Another
user's User entry must keep its input — read through an UNCHECKED index into
the new list (line 408), modelled by `none` (panic) when absent.  A Group
entry the requester is not in must keep its group-level input (bound-checked),
and the member maps must satisfy `groupUsersIsolated`. -/
def CheckOtherUsersForInvalidChanges : List ApproverDetails → List ApproverDetails → UserInfo →
    Option Bool
  | [], _, _ => some true
  | approver :: oldRest, newObjApprover, request =>
    if DefaultedApproverType approver.type == "User" && approver.name != request.username then
      match newObjApprover.head? with
      | none => none
      | some b =>
        if approver.input != b.input then some false
        else CheckOtherUsersForInvalidChanges oldRest newObjApprover.tail request
    else if DefaultedApproverType approver.type == "Group" then
      let isUserInGroup := userInGroup request approver
      let newUsers := match newObjApprover.head? with
        | some b => b.users
        | none => []
      if !isUserInGroup
          && (match newObjApprover.head? with
              | some b => approver.input != b.input
              | none => false) then
        some false
      else if !(groupUsersIsolated approver newUsers request isUserInGroup) then
        some false
      else
        CheckOtherUsersForInvalidChanges oldRest newObjApprover.tail request
    else
      CheckOtherUsersForInvalidChanges oldRest newObjApprover.tail request

/-- `Admit` (webhook.go lines 82-174), restricted to the decision logic: the
old and new bodies arrive already decoded (`none` models an absent or empty
raw body, which leaves the declared zero-valued `ApprovalTask`, lines
101-111 and 133-142).  `none` as a result models a panic inside the helpers. -/
def Admit (oldObj newObj : Option ApprovalTask) (request : UserInfo) :
    Option AdmissionResponse :=
  let old := oldObj.getD default
  if !isApprovalRequired old then
    some ⟨false, "ApprovalTask has already reached it's final state"⟩
  else if !(ifUserExists old.spec.approvers request) then
    some ⟨false, "User does not exist in the approval list"⟩
  else
    let new := newObj.getD default
    match IsUserApprovalChanged old.spec.approvers new.spec.approvers request with
    | none => none
    | some (Except.error e) => some ⟨false, "Invalid input change: " ++ e⟩
    | some (Except.ok false) => some ⟨false, "User can only update their own approval input"⟩
    | some (Except.ok true) =>
      match CheckOtherUsersForInvalidChanges old.spec.approvers new.spec.approvers request with
      | none => none
      | some true => some ⟨true, ""⟩
      | some false => some ⟨false, "User can only update their own approval input"⟩

/-- The eligibility condition of spec §4.1 for one approver entry: a User
entry bearing the requester's username, a Group entry whose name is among the
requester's groups, or a Group entry whose member list holds the requester. -/
def ApproverMatches (approval : ApproverDetails) (request : UserInfo) : Prop :=
  (DefaultedApproverType approval.type = "User" ∧ approval.name = request.username) ∨
  (DefaultedApproverType approval.type = "Group" ∧ approval.name ∈ request.groups) ∨
  (DefaultedApproverType approval.type = "Group" ∧
    ∃ u ∈ approval.users, u.name = request.username)

/-- The new-list entry paired with an old-list entry, when addressable. -/
def newUsersOf : Option ApproverDetails → List UserDetails
  | some b => b.users
  | none => []

/-- What the isolation check guarantees at one old-list position when it
passes: another user's User entry keeps its input (and is addressable), a
Group the requester is not in keeps its group-level input, members other than
the requester keep their recorded input, and any newly recorded member name is
the requester, a member of that group. -/
def IsolatedAt (request : UserInfo) (approver : ApproverDetails)
    (newEntry : Option ApproverDetails) : Prop :=
  (DefaultedApproverType approver.type = "User" → approver.name ≠ request.username →
    ∃ b, newEntry = some b ∧ approver.input = b.input) ∧
  (DefaultedApproverType approver.type = "Group" →
    (userInGroup request approver = false →
      ∀ b, newEntry = some b → approver.input = b.input) ∧
    (∀ n vOld vNew, n ≠ request.username →
      mapLookup approver.users n = some vOld →
      mapLookup (newUsersOf newEntry) n = some vNew → vOld = vNew) ∧
    (∀ n vNew, mapLookup (newUsersOf newEntry) n = some vNew →
      mapLookup approver.users n = none →
      n = request.username ∧ userInGroup request approver = true))

/-- An approver entry attributed to the requester: their own User entry, or a
Group entry they belong to. -/
def RequesterOwns (request : UserInfo) (approver : ApproverDetails) : Prop :=
  (DefaultedApproverType approver.type = "User" ∧ approver.name = request.username) ∨
  (DefaultedApproverType approver.type = "Group" ∧ userInGroup request approver = true)

/-! Helper lemmas. -/

theorem isApprovalRequired_false_of_closed (old : ApprovalTask)
    (h : old.status.state = "approved" ∨ old.status.state = "rejected" ∨
      (old.status.approversResponse.length : Int) = old.spec.numberOfApprovalsRequired) :
    isApprovalRequired old = false := by
  unfold isApprovalRequired
  rcases h with h | h | h
  · simp [h]
  · simp [h]
  · split
    · rfl
    · simp [h]

theorem Admit_closed (old : ApprovalTask) (newObj : Option ApprovalTask) (request : UserInfo)
    (h : isApprovalRequired old = false) :
    Admit (some old) newObj request =
      some ⟨false, "ApprovalTask has already reached it's final state"⟩ := by
  simp [Admit, h]

/-- C1: whenever the old task is closed — state `"approved"` or `"rejected"`,
or as many recorded responses as `NumberOfApprovalsRequired` — `Admit` denies
with the final-state message for every requester and every proposed new
object; since the conclusion holds with no condition on the eligibility,
change-location or isolation inputs, the closed-task check decides first. -/
theorem c1_closed_task_denies (old : ApprovalTask) (newObj : Option ApprovalTask)
    (request : UserInfo)
    (h : old.status.state = "approved" ∨ old.status.state = "rejected" ∨
      (old.status.approversResponse.length : Int) = old.spec.numberOfApprovalsRequired) :
    Admit (some old) newObj request =
      some ⟨false, "ApprovalTask has already reached it's final state"⟩ :=
  Admit_closed old newObj request (isApprovalRequired_false_of_closed old h)

/-- Witness for C1 at a concrete closed task. -/
theorem c1_closed_task_denies_witness :
    Admit (some ⟨⟨[⟨"alice", "", "User", []⟩], 1⟩, ⟨"approved", []⟩⟩) none ⟨"bob", []⟩ =
      some ⟨false, "ApprovalTask has already reached it's final state"⟩ :=
  c1_closed_task_denies ⟨⟨[⟨"alice", "", "User", []⟩], 1⟩, ⟨"approved", []⟩⟩ none ⟨"bob", []⟩
    (Or.inl rfl)

/-- C2: the unchecked positional index into the new approver list.  With a new
list shorter than the old one, a User-type entry makes both
`IsUserApprovalChanged` (the requester's own entry, webhook.go line 295) and
`CheckOtherUsersForInvalidChanges` (another user's entry, line 408) hit
`newObjApprovers[i]` out of range: the model returns `none`, the Go code
panics, instead of skipping the branch as it does for Group-type entries. -/
theorem c2_user_entry_index_fault :
    IsUserApprovalChanged [⟨"alice", "", "User", []⟩] [] ⟨"alice", []⟩ = none ∧
    CheckOtherUsersForInvalidChanges [⟨"bob", "approve", "User", []⟩] [] ⟨"alice", []⟩ = none :=
  ⟨rfl, rfl⟩

/-- C9 counterexample: the code's denial strings differ from the spec's
renderings — the final-state message spells "it's" where the spec says "its",
and the unmatched-requester message capitalizes "User" where the spec's
scenario says "user". -/
theorem c9_message_wording_counterexample :
    Admit (some ⟨⟨[], 1⟩, ⟨"approved", []⟩⟩) none ⟨"alice", []⟩ =
      some ⟨false, "ApprovalTask has already reached it's final state"⟩ ∧
    "ApprovalTask has already reached it's final state" ≠
      "ApprovalTask has already reached its final state" ∧
    Admit (some ⟨⟨[⟨"carol", "", "User", []⟩], 1⟩, ⟨"pending", []⟩⟩) none ⟨"alice", []⟩ =
      some ⟨false, "User does not exist in the approval list"⟩ ∧
    "User does not exist in the approval list" ≠ "user does not exist in the approval list" :=
  ⟨rfl, by decide, rfl, by decide⟩

/-- C9 amended: the two denial messages are fixed strings, exactly
`"ApprovalTask has already reached it's final state"` for a closed task and
`"User does not exist in the approval list"` for a requester matching no
approver entry. -/
theorem c9_exact_denial_messages (old : ApprovalTask) (newObj : Option ApprovalTask)
    (request : UserInfo) :
    ((old.status.state = "approved" ∨ old.status.state = "rejected" ∨
        (old.status.approversResponse.length : Int) = old.spec.numberOfApprovalsRequired) →
      Admit (some old) newObj request =
        some ⟨false, "ApprovalTask has already reached it's final state"⟩) ∧
    (isApprovalRequired old = true → ifUserExists old.spec.approvers request = false →
      Admit (some old) newObj request =
        some ⟨false, "User does not exist in the approval list"⟩) := by
  constructor
  · intro h
    exact Admit_closed old newObj request (isApprovalRequired_false_of_closed old h)
  · intro h1 h2
    simp [Admit, h1, h2]

/-- Witness for C9's amended statement at concrete inputs. -/
theorem c9_exact_denial_messages_witness :
    Admit (some ⟨⟨[⟨"carol", "", "User", []⟩], 1⟩, ⟨"pending", []⟩⟩) none ⟨"alice", []⟩ =
      some ⟨false, "User does not exist in the approval list"⟩ :=
  (c9_exact_denial_messages ⟨⟨[⟨"carol", "", "User", []⟩], 1⟩, ⟨"pending", []⟩⟩ none
    ⟨"alice", []⟩).2 rfl rfl

/-- C10: an absent or empty old body leaves the zero-valued `ApprovalTask`,
whose 0 recorded responses equal its `NumberOfApprovalsRequired` of 0, so the
request is denied with the final-state message; in general any task whose
response count equals its threshold — 0 included — admits no update from any
requester. -/
theorem c10_zero_value_closed :
    ((default : ApprovalTask).spec.numberOfApprovalsRequired = 0 ∧
      (default : ApprovalTask).status.approversResponse = []) ∧
    (∀ (newObj : Option ApprovalTask) (request : UserInfo),
      Admit none newObj request =
        some ⟨false, "ApprovalTask has already reached it's final state"⟩) ∧
    (∀ (old : ApprovalTask) (newObj : Option ApprovalTask) (request : UserInfo),
      (old.status.approversResponse.length : Int) = old.spec.numberOfApprovalsRequired →
      Admit (some old) newObj request =
        some ⟨false, "ApprovalTask has already reached it's final state"⟩) := by
  refine ⟨⟨rfl, rfl⟩, fun newObj request => rfl, fun old newObj request h => ?_⟩
  exact Admit_closed old newObj request (isApprovalRequired_false_of_closed old (Or.inr (Or.inr h)))

/-- Witness for C10 at a concrete task that met its threshold while pending. -/
theorem c10_zero_value_closed_witness :
    Admit (some ⟨⟨[⟨"alice", "", "User", []⟩], 1⟩, ⟨"pending", [⟨"alice", "approve"⟩]⟩⟩)
        none ⟨"alice", []⟩ =
      some ⟨false, "ApprovalTask has already reached it's final state"⟩ :=
  c10_zero_value_closed.2.2 ⟨⟨[⟨"alice", "", "User", []⟩], 1⟩, ⟨"pending", [⟨"alice", "approve"⟩]⟩⟩
    none ⟨"alice", []⟩ rfl

/-- C5: `hasValidInputValue` accepts exactly `"approve"` and `"reject"`; every
other literal gets the invalid-value error naming the offending value, and
when the change locator surfaces such an error on an otherwise admissible
request, `Admit` denies with that message prefixed by "Invalid input change: ". -/
theorem c5_value_domain (v : String) (old new : ApprovalTask) (request : UserInfo) (e : String) :
    (hasValidInputValue v = Except.ok () ↔ v = "approve" ∨ v = "reject") ∧
    (v ≠ "approve" → v ≠ "reject" → hasValidInputValue v = Except.error (invalidInputMsg v)) ∧
    (isApprovalRequired old = true → ifUserExists old.spec.approvers request = true →
      IsUserApprovalChanged old.spec.approvers new.spec.approvers request =
        some (Except.error e) →
      Admit (some old) (some new) request =
        some ⟨false, "Invalid input change: " ++ e⟩) := by
  refine ⟨?_, ?_, ?_⟩
  · unfold hasValidInputValue
    split
    · rename_i hc
      simp only [Bool.or_eq_true, beq_iff_eq] at hc
      simp [hc]
    · rename_i hc
      simp only [Bool.or_eq_true, beq_iff_eq] at hc
      push_neg at hc
      simp [hc.1, hc.2]
  · intro h1 h2
    unfold hasValidInputValue
    rw [if_neg]
    simp [h1, h2]
  · intro h1 h2 h3
    simp [Admit, h1, h2, h3]

/-- Witness for C5: scenario 6, requester alice supplies "maybe" on her own
entry and is denied with the message naming "maybe". -/
theorem c5_value_domain_witness :
    hasValidInputValue "maybe" = Except.error (invalidInputMsg "maybe") ∧
    Admit (some ⟨⟨[⟨"alice", "", "User", []⟩], 1⟩, ⟨"pending", []⟩⟩)
        (some ⟨⟨[⟨"alice", "maybe", "User", []⟩], 1⟩, ⟨"pending", []⟩⟩) ⟨"alice", []⟩ =
      some ⟨false, "Invalid input change: " ++ invalidInputMsg "maybe"⟩ := by
  have h := c5_value_domain "maybe" ⟨⟨[⟨"alice", "", "User", []⟩], 1⟩, ⟨"pending", []⟩⟩
    ⟨⟨[⟨"alice", "maybe", "User", []⟩], 1⟩, ⟨"pending", []⟩⟩ ⟨"alice", []⟩ (invalidInputMsg "maybe")
  exact ⟨h.2.1 (by decide) (by decide), h.2.2 rfl rfl rfl⟩

/-- C7 counterexample: the requester's own User entry with a differing input
is NOT located as a change when the entry's name changed too —
`hasOnlyInputChanged` also requires `old[i].name == new[i].name`, a condition
on `new[i]` beyond the input difference. -/
theorem c7_renamed_entry_not_located :
    IsUserApprovalChanged [⟨"alice", "", "User", []⟩] [⟨"bob", "approve", "User", []⟩]
        ⟨"alice", []⟩ = some (Except.ok false) ∧
    (⟨"alice", "", "User", []⟩ : ApproverDetails).input ≠
      (⟨"bob", "approve", "User", []⟩ : ApproverDetails).input ∧
    DefaultedApproverType (⟨"alice", "", "User", []⟩ : ApproverDetails).type = "User" ∧
    (⟨"alice", "", "User", []⟩ : ApproverDetails).name = (⟨"alice", []⟩ : UserInfo).username :=
  ⟨rfl, by decide, rfl, rfl⟩

/-- C7 amended: at the requester's own User entry the located change is
characterized by `new[i].name = old[i].name` together with
`old[i].input ≠ new[i].input`; a located change must carry a valid new value,
an invalid one yields exactly the invalid-value error, and no condition on
`new[i]` other than the name and the input plays a part. -/
theorem c7_user_entry_change (a b : ApproverDetails) (request : UserInfo)
    (oldRest newL : List ApproverDetails) (e : String) :
    (hasOnlyInputChanged a b = Except.ok true ↔
      a.name = b.name ∧ a.input ≠ b.input ∧ (b.input = "approve" ∨ b.input = "reject")) ∧
    (hasOnlyInputChanged a b = Except.ok false ↔ (a.name ≠ b.name ∨ a.input = b.input)) ∧
    (hasOnlyInputChanged a b = Except.error e ↔
      a.name = b.name ∧ a.input ≠ b.input ∧ b.input ≠ "approve" ∧ b.input ≠ "reject" ∧
        e = invalidInputMsg b.input) ∧
    (DefaultedApproverType a.type = "User" → a.name = request.username →
      IsUserApprovalChanged (a :: oldRest) newL request =
        match newL.head? with
        | none => none
        | some b2 => some (hasOnlyInputChanged a b2)) := by
  have hchar : ∀ P : Except String Bool → Prop,
      (hasOnlyInputChanged a b = Except.ok true ↔
        a.name = b.name ∧ a.input ≠ b.input ∧ (b.input = "approve" ∨ b.input = "reject")) := by
    intro _
    unfold hasOnlyInputChanged validatedChange hasValidInputValue
    by_cases hn : a.name = b.name
    · by_cases hi : a.input = b.input
      · simp [hn, hi]
      · by_cases hv : b.input = "approve" ∨ b.input = "reject"
        · rcases hv with hv | hv <;> simp [hn, hi, hv]
        · push_neg at hv
          simp [hn, hi, hv.1, hv.2]
    · simp [hn]
  refine ⟨hchar (fun _ => True), ?_, ?_, ?_⟩
  · unfold hasOnlyInputChanged validatedChange hasValidInputValue
    by_cases hn : a.name = b.name
    · by_cases hi : a.input = b.input
      · simp [hn, hi]
      · by_cases hv : b.input = "approve" ∨ b.input = "reject"
        · rcases hv with hv | hv <;> simp [hn, hi, hv]
        · push_neg at hv
          simp [hn, hi, hv.1, hv.2]
    · simp [hn]
  · unfold hasOnlyInputChanged validatedChange hasValidInputValue
    by_cases hn : a.name = b.name
    · by_cases hi : a.input = b.input
      · simp [hn, hi]
      · by_cases hv1 : b.input = "approve"
        · simp [hn, hi, hv1]
          split <;> simp
        · by_cases hv2 : b.input = "reject"
          · simp [hn, hi, hv2]
            split <;> simp
          · simp [hn, hi, hv1, hv2, invalidInputMsg]
            exact eq_comm
    · simp [hn]
  · intro h1 h2
    unfold IsUserApprovalChanged
    rw [if_pos (by simp [h1, h2])]

/-- Witness for C7's amended statement: alice's own entry, input "" to
"approve" with the name kept, is a located change. -/
theorem c7_user_entry_change_witness :
    IsUserApprovalChanged [⟨"alice", "", "User", []⟩] [⟨"alice", "approve", "User", []⟩]
        ⟨"alice", []⟩ = some (Except.ok true) := by
  have h := c7_user_entry_change ⟨"alice", "", "User", []⟩ ⟨"alice", "approve", "User", []⟩
    ⟨"alice", []⟩ [] [⟨"alice", "approve", "User", []⟩] ""
  rw [h.2.2.2 rfl rfl]
  exact congrArg some (h.1.mpr ⟨rfl, by decide, Or.inl rfl⟩)

/-- C8 counterexample: the first old-list entry matching the requester (a
Group she belongs to) does NOT stop the scan when it exhibits no change — with
a later User entry of hers changed the call locates that change, while the
same first entry alone locates none, so the result is not determined by the
first matching index. -/
theorem c8_scan_continues_past_group :
    userInGroup ⟨"alice", ["qa"]⟩ ⟨"qa", "", "Group", []⟩ = true ∧
    IsUserApprovalChanged [⟨"qa", "", "Group", []⟩, ⟨"alice", "", "User", []⟩]
        [⟨"qa", "", "Group", []⟩, ⟨"alice", "approve", "User", []⟩] ⟨"alice", ["qa"]⟩ =
      some (Except.ok true) ∧
    IsUserApprovalChanged [⟨"qa", "", "Group", []⟩] [⟨"qa", "", "Group", []⟩]
        ⟨"alice", ["qa"]⟩ = some (Except.ok false) :=
  ⟨rfl, rfl, rfl⟩

/-- C8 amended: a User-type entry bearing the requester's name stops the scan
and determines the result by itself; a Group entry the requester belongs to
stops the scan exactly when its rules yield a located change or a validation
error, and otherwise the scan continues with the later entries. -/
theorem c8_first_match_shortcircuit (a : ApproverDetails) (oldRest newL : List ApproverDetails)
    (request : UserInfo) (r : Except String Bool) :
    (DefaultedApproverType a.type = "User" → a.name = request.username →
      IsUserApprovalChanged (a :: oldRest) newL request =
        match newL.head? with
        | none => none
        | some b => some (hasOnlyInputChanged a b)) ∧
    (DefaultedApproverType a.type = "Group" → userInGroup request a = true →
      groupApprovalChange a newL.head? request = some r →
      IsUserApprovalChanged (a :: oldRest) newL request = some r) ∧
    (DefaultedApproverType a.type = "Group" → userInGroup request a = true →
      groupApprovalChange a newL.head? request = none →
      IsUserApprovalChanged (a :: oldRest) newL request =
        IsUserApprovalChanged oldRest newL.tail request) := by
  refine ⟨?_, ?_, ?_⟩
  · intro h1 h2
    unfold IsUserApprovalChanged
    rw [if_pos (by simp [h1, h2])]
  · intro h1 h2 h3
    unfold IsUserApprovalChanged
    rw [if_neg (by simp [h1]), if_pos (by simp [h1]), if_pos h2, h3]
  · intro h1 h2 h3
    conv_lhs => rw [IsUserApprovalChanged]
    rw [if_neg (by simp [h1]), if_pos (by simp [h1]), if_pos h2, h3]

/-- Witness for C8's amended statement: a matching Group entry that locates a
group-level input change stops the scan with that change. -/
theorem c8_first_match_shortcircuit_witness :
    IsUserApprovalChanged [⟨"qa", "", "Group", []⟩, ⟨"alice", "", "User", []⟩]
        [⟨"qa", "approve", "Group", []⟩, ⟨"alice", "reject", "User", []⟩] ⟨"alice", ["qa"]⟩ =
      some (Except.ok true) :=
  (c8_first_match_shortcircuit ⟨"qa", "", "Group", []⟩ [⟨"alice", "", "User", []⟩]
    [⟨"qa", "approve", "Group", []⟩, ⟨"alice", "reject", "User", []⟩] ⟨"alice", ["qa"]⟩
    (Except.ok true)).2.1 rfl rfl rfl

theorem userInGroup_iff (request : UserInfo) (approval : ApproverDetails) :
    userInGroup request approval = true ↔
      approval.name ∈ request.groups ∨ ∃ u ∈ approval.users, u.name = request.username := by
  simp only [userInGroup, Bool.or_eq_true, List.any_eq_true, beq_iff_eq]
  constructor
  · rintro (⟨g, hg, rfl⟩ | ⟨u, hu, hn⟩)
    · exact Or.inl hg
    · exact Or.inr ⟨u, hu, hn⟩
  · rintro (hg | ⟨u, hu, hn⟩)
    · exact Or.inl ⟨approval.name, hg, rfl⟩
    · exact Or.inr ⟨u, hu, hn⟩

theorem ifUserExists_entry_iff (approval : ApproverDetails) (request : UserInfo) :
    ((match DefaultedApproverType approval.type with
      | "User" => approval.name == request.username
      | "Group" => userInGroup request approval
      | _ => false) = true) ↔ ApproverMatches approval request := by
  unfold ApproverMatches
  split
  · rename_i h
    simp [h]
  · rename_i h
    rw [userInGroup_iff]
    simp [h]
  · rename_i h h1 h2
    simp [h1, h2]
    exact ⟨fun hh => absurd hh h1, fun hh => absurd hh h2, fun hh => absurd hh h2⟩

/-- C4: the eligibility predicate accepts every requester when the approver
list is empty; a non-empty list accepts exactly the requesters matching some
entry (a User entry bearing their username, a Group entry named by one of
their groups, or a Group entry listing them as a member); a request failing it
on an open task is denied with the user-does-not-exist reason. -/
theorem c4_eligibility (approvals : List ApproverDetails) (request : UserInfo) :
    (ifUserExists [] request = true) ∧
    (approvals ≠ [] →
      (ifUserExists approvals request = true ↔ ∃ a ∈ approvals, ApproverMatches a request)) ∧
    (∀ (old : ApprovalTask) (newObj : Option ApprovalTask),
      isApprovalRequired old = true → ifUserExists old.spec.approvers request = false →
      Admit (some old) newObj request =
        some ⟨false, "User does not exist in the approval list"⟩) := by
  refine ⟨rfl, ?_, ?_⟩
  · intro hne
    unfold ifUserExists
    rw [if_neg (by simp [hne])]
    rw [List.any_eq_true]
    constructor
    · rintro ⟨a, ha, hp⟩
      exact ⟨a, ha, (ifUserExists_entry_iff a request).mp hp⟩
    · rintro ⟨a, ha, hp⟩
      exact ⟨a, ha, (ifUserExists_entry_iff a request).mpr hp⟩
  · intro old newObj h1 h2
    simp [Admit, h1, h2]

theorem getElem_succ_tail (l : List ApproverDetails) (i : Nat) : l[i + 1]? = l.tail[i]? := by
  cases l <;> simp

theorem validatedChange_error {v e : String} (h : validatedChange v = Except.error e) :
    e = invalidInputMsg v := by
  unfold validatedChange hasValidInputValue at h
  by_cases hv : (v == "approve" || v == "reject") = true
  · rw [if_pos hv] at h
    exact absurd h (by simp)
  · rw [if_neg hv] at h
    simp at h
    exact h.symm

theorem hasOnlyInputChanged_error {a b : ApproverDetails} {e : String}
    (h : hasOnlyInputChanged a b = Except.error e) : e = invalidInputMsg b.input := by
  unfold hasOnlyInputChanged at h
  split at h
  · exact validatedChange_error h
  · exact absurd h (by simp)

theorem findUser_some {users : List UserDetails} {n : String} {u : UserDetails}
    (h : findUser users n = some u) : u ∈ users ∧ u.name = n := by
  unfold findUser at h
  exact ⟨List.mem_of_find?_eq_some h, by simpa using List.find?_some h⟩

theorem groupMemberChange_none (a : ApproverDetails) (request : UserInfo) :
    groupMemberChange a none request = none := by
  unfold groupMemberChange
  cases hf : findUser a.users request.username <;> simp [hf, findUser]

theorem groupMemberChange_some (a b : ApproverDetails) (request : UserInfo) :
    groupMemberChange a (some b) request =
      if !(findUser a.users request.username).isSome
          && (findUser b.users request.username).isSome then
        some (match findUser b.users request.username with
          | some user => validatedChange user.input
          | none => Except.ok true)
      else
        match findUser a.users request.username, findUser b.users request.username with
        | some oldUser, some newUser =>
            if oldUser.input != newUser.input then some (validatedChange newUser.input) else none
        | _, _ => none := rfl

theorem groupApprovalChange_some (a b : ApproverDetails) (request : UserInfo) :
    groupApprovalChange a (some b) request =
      if a.input != b.input then some (validatedChange b.input)
      else groupMemberChange a (some b) request := rfl

theorem groupMemberChange_error {a : ApproverDetails} {newEntry : Option ApproverDetails}
    {request : UserInfo} {e : String}
    (h : groupMemberChange a newEntry request = some (Except.error e)) :
    ∃ b, newEntry = some b ∧
      ∃ u ∈ b.users, u.name = request.username ∧ e = invalidInputMsg u.input := by
  cases newEntry with
  | none => rw [groupMemberChange_none] at h; exact absurd h (by simp)
  | some b =>
    refine ⟨b, rfl, ?_⟩
    rw [groupMemberChange_some] at h
    cases hfo : findUser a.users request.username with
    | none =>
      cases hfn : findUser b.users request.username with
      | none => rw [hfo, hfn] at h; simp at h
      | some u =>
        rw [hfo, hfn] at h
        simp at h
        obtain ⟨hm, hn⟩ := findUser_some hfn
        exact ⟨u, hm, hn, validatedChange_error h⟩
    | some o =>
      cases hfn : findUser b.users request.username with
      | none => rw [hfo, hfn] at h; simp at h
      | some u =>
        rw [hfo, hfn] at h
        simp at h
        by_cases hio : o.input = u.input
        · simp [hio] at h
        · simp [hio] at h
          obtain ⟨hm, hn⟩ := findUser_some hfn
          exact ⟨u, hm, hn, validatedChange_error h⟩

theorem groupApprovalChange_error {a : ApproverDetails} {newEntry : Option ApproverDetails}
    {request : UserInfo} {e : String}
    (h : groupApprovalChange a newEntry request = some (Except.error e)) :
    ∃ b, newEntry = some b ∧
      (e = invalidInputMsg b.input ∨
        ∃ u ∈ b.users, u.name = request.username ∧ e = invalidInputMsg u.input) := by
  cases newEntry with
  | none =>
    unfold groupApprovalChange at h
    rw [groupMemberChange_none] at h
    exact absurd h (by simp)
  | some b =>
    rw [groupApprovalChange_some] at h
    by_cases hib : a.input = b.input
    · rw [if_neg (by simp [hib])] at h
      obtain ⟨b2, hb2, hu⟩ := groupMemberChange_error h
      obtain rfl : b = b2 := by injection hb2
      exact ⟨b, rfl, Or.inr hu⟩
    · rw [if_pos (by simp [hib])] at h
      injection h with h
      exact ⟨b, rfl, Or.inl (validatedChange_error h)⟩

theorem isUserApprovalChanged_error_attribution :
    ∀ (oldL newL : List ApproverDetails) (request : UserInfo) (e : String),
      IsUserApprovalChanged oldL newL request = some (Except.error e) →
      ∃ (i : Nat) (a b : ApproverDetails), oldL[i]? = some a ∧ newL[i]? = some b ∧
        RequesterOwns request a ∧
        (e = invalidInputMsg b.input ∨
          ∃ u ∈ b.users, u.name = request.username ∧ e = invalidInputMsg u.input) := by
  intro oldL
  induction oldL with
  | nil =>
    intro newL request e h
    simp [IsUserApprovalChanged] at h
  | cons a rest ih =>
    intro newL request e h
    unfold IsUserApprovalChanged at h
    by_cases hu : (a.name == request.username && DefaultedApproverType a.type == "User") = true
    · rw [if_pos hu] at h
      cases hh : newL.head? with
      | none => rw [hh] at h; exact absurd h (by simp)
      | some b =>
        rw [hh] at h
        injection h with h
        refine ⟨0, a, b, by simp, ?_, ?_, Or.inl (hasOnlyInputChanged_error h)⟩
        · cases newL with
          | nil => simp at hh
          | cons c t =>
            simp at hh
            simp [hh]
        · simp only [Bool.and_eq_true, beq_iff_eq] at hu
          exact Or.inl ⟨hu.2, hu.1⟩
    · rw [if_neg hu] at h
      by_cases hg : (DefaultedApproverType a.type == "Group") = true
      · rw [if_pos hg] at h
        by_cases hm : userInGroup request a = true
        · rw [if_pos hm] at h
          cases hgc : groupApprovalChange a newL.head? request with
          | none =>
            rw [hgc] at h
            obtain ⟨i, a2, b2, h1, h2, h3, h4⟩ := ih newL.tail request e h
            refine ⟨i + 1, a2, b2, by simpa using h1, ?_, h3, h4⟩
            rw [getElem_succ_tail]
            exact h2
          | some r =>
            rw [hgc] at h
            injection h with h
            subst h
            obtain ⟨b, hb, hcase⟩ := groupApprovalChange_error hgc
            refine ⟨0, a, b, by simp, ?_, Or.inr ⟨by simpa using hg, hm⟩, hcase⟩
            cases newL with
            | nil => simp at hb
            | cons c t =>
              simp at hb
              simp [hb]
        · rw [if_neg hm] at h
          obtain ⟨i, a2, b2, h1, h2, h3, h4⟩ := ih newL.tail request e h
          refine ⟨i + 1, a2, b2, by simpa using h1, ?_, h3, h4⟩
          rw [getElem_succ_tail]
          exact h2
      · rw [if_neg hg] at h
        obtain ⟨i, a2, b2, h1, h2, h3, h4⟩ := ih newL.tail request e h
        refine ⟨i + 1, a2, b2, by simpa using h1, ?_, h3, h4⟩
        rw [getElem_succ_tail]
        exact h2

theorem mapLookup_aux (users : List UserDetails) (n : String) (acc : Option String) (v : String) :
    users.foldl (fun acc u => if u.name == n then some u.input else acc) acc = some v →
    (∃ u ∈ users, u.name = n) ∨ acc = some v := by
  induction users generalizing acc with
  | nil => intro h; exact Or.inr h
  | cons u rest ih =>
    intro h
    rw [List.foldl_cons] at h
    rcases ih _ h with h2 | h2
    · obtain ⟨u2, hm, hn⟩ := h2
      exact Or.inl ⟨u2, List.mem_cons_of_mem _ hm, hn⟩
    · by_cases hn : (u.name == n) = true
      · exact Or.inl ⟨u, List.mem_cons_self _ _, by simpa using hn⟩
      · rw [if_neg hn] at h2
        exact Or.inr h2

theorem mapLookup_mem {users : List UserDetails} {n v : String}
    (h : mapLookup users n = some v) : ∃ u ∈ users, u.name = n := by
  unfold mapLookup at h
  rcases mapLookup_aux users n none v h with h2 | h2
  · exact h2
  · exact absurd h2 (by simp)

theorem groupUsersIsolated_spec {approver : ApproverDetails} {newUsers : List UserDetails}
    {request : UserInfo} {m : Bool}
    (h : groupUsersIsolated approver newUsers request m = true) :
    (∀ n vOld vNew, n ≠ request.username → mapLookup approver.users n = some vOld →
      mapLookup newUsers n = some vNew → vOld = vNew) ∧
    (∀ n vNew, mapLookup newUsers n = some vNew → mapLookup approver.users n = none →
      n = request.username ∧ m = true) := by
  unfold groupUsersIsolated at h
  rw [Bool.and_eq_true] at h
  obtain ⟨h1, h2⟩ := h
  rw [List.all_eq_true] at h1
  rw [List.all_eq_true] at h2
  constructor
  · intro n vOld vNew hne hold hnew
    obtain ⟨u, hm, rfl⟩ := mapLookup_mem hold
    have hc := h1 u hm
    rw [Bool.or_eq_true] at hc
    rcases hc with hc | hc
    · exact absurd (by simpa using hc) hne
    · rw [hnew] at hc
      rw [hold] at hc
      simpa using hc
  · intro n vNew hnew hold
    obtain ⟨u, hm, rfl⟩ := mapLookup_mem hnew
    have hc := h2 u hm
    rw [Bool.or_eq_true] at hc
    rcases hc with hc | hc
    · rw [hold] at hc
      exact absurd hc (by simp)
    · simpa using hc

theorem checkOther_cons_eq (a : ApproverDetails) (rest newL : List ApproverDetails)
    (request : UserInfo) :
    CheckOtherUsersForInvalidChanges (a :: rest) newL request =
      (if DefaultedApproverType a.type == "User" && a.name != request.username then
        match newL.head? with
        | none => none
        | some b =>
          if a.input != b.input then some false
          else CheckOtherUsersForInvalidChanges rest newL.tail request
      else if DefaultedApproverType a.type == "Group" then
        if !(userInGroup request a)
            && (match newL.head? with
                | some b => a.input != b.input
                | none => false) then
          some false
        else if !(groupUsersIsolated a (newUsersOf newL.head?) request (userInGroup request a)) then
          some false
        else
          CheckOtherUsersForInvalidChanges rest newL.tail request
      else
        CheckOtherUsersForInvalidChanges rest newL.tail request) := rfl

theorem checkOther_cons {a : ApproverDetails} {rest newL : List ApproverDetails}
    {request : UserInfo}
    (h : CheckOtherUsersForInvalidChanges (a :: rest) newL request = some true) :
    CheckOtherUsersForInvalidChanges rest newL.tail request = some true ∧
    IsolatedAt request a newL.head? := by
  rw [checkOther_cons_eq] at h
  by_cases hu : (DefaultedApproverType a.type == "User" && a.name != request.username) = true
  · rw [if_pos hu] at h
    simp only [Bool.and_eq_true, beq_iff_eq, bne_iff_ne, ne_eq] at hu
    cases hh : newL.head? with
    | none => rw [hh] at h; exact absurd h (by simp)
    | some b =>
      rw [hh] at h
      have h2 : (if (a.input != b.input) = true then some false
          else CheckOtherUsersForInvalidChanges rest newL.tail request) = some true := h
      by_cases hio : a.input = b.input
      · rw [if_neg (by simp [hio])] at h2
        refine ⟨h2, ?_, ?_⟩
        · intro _ _
          exact ⟨b, rfl, hio⟩
        · intro hG
          rw [hu.1] at hG
          exact absurd hG (by decide)
      · rw [if_pos (by simp [hio])] at h2
        exact absurd h2 (by simp)
  · rw [if_neg hu] at h
    by_cases hg : (DefaultedApproverType a.type == "Group") = true
    · rw [if_pos hg] at h
      have hG : DefaultedApproverType a.type = "Group" := by simpa using hg
      by_cases hc1 : (!(userInGroup request a)
          && (match newL.head? with
              | some b => a.input != b.input
              | none => false)) = true
      · rw [if_pos hc1] at h
        exact absurd h (by simp)
      · rw [if_neg hc1] at h
        by_cases hc2 : (!(groupUsersIsolated a (newUsersOf newL.head?) request
            (userInGroup request a))) = true
        · rw [if_pos hc2] at h
          exact absurd h (by simp)
        · rw [if_neg hc2] at h
          have hiso : groupUsersIsolated a (newUsersOf newL.head?) request
              (userInGroup request a) = true := by simpa using hc2
          obtain ⟨hmap1, hmap2⟩ := groupUsersIsolated_spec hiso
          refine ⟨h, ?_, ?_⟩
          · intro hU _
            rw [hG] at hU
            exact absurd hU (by decide)
          · intro _
            refine ⟨?_, hmap1, hmap2⟩
            intro hm b hb
            simp [hm, hb] at hc1
            exact hc1
    · rw [if_neg hg] at h
      refine ⟨h, ?_, ?_⟩
      · intro hU hne
        exact absurd (by simp [hU, hne]) hu
      · intro hG
        exact absurd (by simp [hG]) hg

theorem checkOther_isolates :
    ∀ (oldL newL : List ApproverDetails) (request : UserInfo),
      CheckOtherUsersForInvalidChanges oldL newL request = some true →
      ∀ (i : Nat) (a : ApproverDetails), oldL[i]? = some a → IsolatedAt request a newL[i]? := by
  intro oldL
  induction oldL with
  | nil =>
    intro newL request h i a ha
    simp at ha
  | cons a0 rest ih =>
    intro newL request h i a ha
    obtain ⟨hrec, hiso⟩ := checkOther_cons h
    cases i with
    | zero =>
      simp at ha
      subst ha
      have hz : newL[0]? = newL.head? := by cases newL <;> simp
      rw [hz]
      exact hiso
    | succ j =>
      rw [List.getElem?_cons_succ] at ha
      rw [getElem_succ_tail]
      exact ih newL.tail request hrec j a ha

theorem Admit_some_some (old newT : ApprovalTask) (request : UserInfo) :
    Admit (some old) (some newT) request =
      (if !isApprovalRequired old then
        some ⟨false, "ApprovalTask has already reached it's final state"⟩
      else if !(ifUserExists old.spec.approvers request) then
        some ⟨false, "User does not exist in the approval list"⟩
      else
        match IsUserApprovalChanged old.spec.approvers newT.spec.approvers request with
        | none => none
        | some (Except.error e) => some ⟨false, "Invalid input change: " ++ e⟩
        | some (Except.ok false) =>
            some ⟨false, "User can only update their own approval input"⟩
        | some (Except.ok true) =>
          match CheckOtherUsersForInvalidChanges old.spec.approvers newT.spec.approvers
              request with
          | none => none
          | some true => some ⟨true, ""⟩
          | some false =>
              some ⟨false, "User can only update their own approval input"⟩) := rfl

theorem admit_allow_checkOther {old newT : ApprovalTask} {request : UserInfo}
    (h : Admit (some old) (some newT) request = some ⟨true, ""⟩) :
    CheckOtherUsersForInvalidChanges old.spec.approvers newT.spec.approvers request =
      some true := by
  rw [Admit_some_some] at h
  by_cases h1 : (!isApprovalRequired old) = true
  · rw [if_pos h1] at h
    exact absurd h (by simp)
  · rw [if_neg h1] at h
    by_cases h2 : (!(ifUserExists old.spec.approvers request)) = true
    · rw [if_pos h2] at h
      exact absurd h (by simp)
    · rw [if_neg h2] at h
      cases h3 : IsUserApprovalChanged old.spec.approvers newT.spec.approvers request with
      | none => rw [h3] at h; exact absurd h (by simp)
      | some r =>
        rw [h3] at h
        cases r with
        | error e => exact absurd h (by simp)
        | ok bb =>
          cases bb with
          | false => exact absurd h (by simp)
          | true =>
            have h4 : (match CheckOtherUsersForInvalidChanges old.spec.approvers
                newT.spec.approvers request with
              | none => none
              | some true => some (⟨true, ""⟩ : AdmissionResponse)
              | some false =>
                  some (⟨false, "User can only update their own approval input"⟩ :
                    AdmissionResponse)) = some (⟨true, ""⟩ : AdmissionResponse) := h
            cases h5 : CheckOtherUsersForInvalidChanges old.spec.approvers
                newT.spec.approvers request with
            | none => rw [h5] at h4; exact absurd h4 (by simp)
            | some bb2 =>
              rw [h5] at h4
              cases bb2 with
              | true => rfl
              | false => exact absurd h4 (by simp)

/-- C3 counterexample: both group-level inputs change between old and new —
two decision values differ — yet the engine allows the update, because the
isolation check never compares the group-level input of a group the requester
belongs to. -/
theorem c3_two_values_change_allowed :
    Admit (some ⟨⟨[⟨"group1", "", "Group", []⟩, ⟨"group2", "", "Group", []⟩], 1⟩, ⟨"pending", []⟩⟩)
        (some ⟨⟨[⟨"group1", "approve", "Group", []⟩, ⟨"group2", "approve", "Group", []⟩], 1⟩,
          ⟨"pending", []⟩⟩)
        ⟨"alice", ["group1", "group2"]⟩ = some ⟨true, ""⟩ ∧
    (⟨"group1", "", "Group", []⟩ : ApproverDetails).input ≠
      (⟨"group1", "approve", "Group", []⟩ : ApproverDetails).input ∧
    (⟨"group2", "", "Group", []⟩ : ApproverDetails).input ≠
      (⟨"group2", "approve", "Group", []⟩ : ApproverDetails).input :=
  ⟨rfl, by decide, by decide⟩

/-- C3 amended: an allowed update leaves every decision value that is not
attributed to the requester unchanged — another user's User entry keeps its
input, a group the requester is not in keeps its group-level input, recorded
member inputs of others persist, and newly recorded member names can only be
the requester as a member — but several values attributed to the requester may
change in one allowed update. -/
theorem c3_isolation (old new : ApprovalTask) (request : UserInfo)
    (h : Admit (some old) (some new) request = some ⟨true, ""⟩) :
    ∀ (i : Nat) (a : ApproverDetails), old.spec.approvers[i]? = some a →
      IsolatedAt request a (new.spec.approvers[i]?) :=
  checkOther_isolates old.spec.approvers new.spec.approvers request (admit_allow_checkOther h)

/-- Witness for C3's amended statement: in an allowed update by alice, bob's
entry at index 1 is isolated. -/
theorem c3_isolation_witness :
    IsolatedAt ⟨"alice", []⟩ ⟨"bob", "", "User", []⟩
      (([⟨"alice", "approve", "User", []⟩, ⟨"bob", "", "User", []⟩] :
        List ApproverDetails)[1]?) :=
  c3_isolation ⟨⟨[⟨"alice", "", "User", []⟩, ⟨"bob", "", "User", []⟩], 2⟩, ⟨"pending", []⟩⟩
    ⟨⟨[⟨"alice", "approve", "User", []⟩, ⟨"bob", "", "User", []⟩], 2⟩, ⟨"pending", []⟩⟩
    ⟨"alice", []⟩ rfl 1 ⟨"bob", "", "User", []⟩ rfl

/-- C6: the change locator surfaces a value-validation error only for a change
attributed to the requester — the offending value sits at an old-list index
whose entry is the requester's own User entry or a Group they belong to, and
is either that new entry's own input or the requester's member input inside
it; when the locator instead finds no change (whatever invalid values other
parties' entries hold), the denial is the own-approval-only reason. -/
theorem c6_invalid_value_attribution (oldL newL : List ApproverDetails)
    (old new : ApprovalTask) (request : UserInfo) (e : String) :
    (IsUserApprovalChanged oldL newL request = some (Except.error e) →
      ∃ (i : Nat) (a b : ApproverDetails), oldL[i]? = some a ∧ newL[i]? = some b ∧
        RequesterOwns request a ∧
        (e = invalidInputMsg b.input ∨
          ∃ u ∈ b.users, u.name = request.username ∧ e = invalidInputMsg u.input)) ∧
    (isApprovalRequired old = true → ifUserExists old.spec.approvers request = true →
      IsUserApprovalChanged old.spec.approvers new.spec.approvers request =
        some (Except.ok false) →
      Admit (some old) (some new) request =
        some ⟨false, "User can only update their own approval input"⟩) := by
  constructor
  · exact isUserApprovalChanged_error_attribution oldL newL request e
  · intro h1 h2 h3
    simp [Admit, h1, h2, h3]

/-- Witness for C6 at a concrete invalid own-entry change. -/
theorem c6_invalid_value_attribution_witness :
    ∃ (i : Nat) (a b : ApproverDetails),
      ([⟨"alice", "", "User", []⟩] : List ApproverDetails)[i]? = some a ∧
      ([⟨"alice", "maybe", "User", []⟩] : List ApproverDetails)[i]? = some b ∧
      RequesterOwns ⟨"alice", []⟩ a ∧
      (invalidInputMsg "maybe" = invalidInputMsg b.input ∨
        ∃ u ∈ b.users, u.name = (⟨"alice", []⟩ : UserInfo).username ∧
          invalidInputMsg "maybe" = invalidInputMsg u.input) :=
  (c6_invalid_value_attribution [⟨"alice", "", "User", []⟩] [⟨"alice", "maybe", "User", []⟩]
    default default ⟨"alice", []⟩ (invalidInputMsg "maybe")).1 rfl

/-- Witness for C4 at a concrete unmatched requester on an open task. -/
theorem c4_eligibility_witness :
    Admit (some ⟨⟨[⟨"erin", "", "User", []⟩], 1⟩, ⟨"pending", []⟩⟩) none ⟨"dave", []⟩ =
      some ⟨false, "User does not exist in the approval list"⟩ :=
  (c4_eligibility [] ⟨"dave", []⟩).2.2 ⟨⟨[⟨"erin", "", "User", []⟩], 1⟩, ⟨"pending", []⟩⟩ none
    rfl rfl
